import Mathlib

/-!
Verification of the medication-viewer pagination / filter / sort core.

Shallow embedding of:
  * `src/utils/formatters.ts`   — `cleanMedicationName`
  * `src/types/medication.ts`   — the medication document schema
  * `src/data/firestoreApi.ts`  — `getMedicationCount`, `fetchMedicationsPage`,
                                  `fetchAllMedications`
  * `src/stores/MedicationViewerStore.ts` — the MobX store (state, derived
                                  views, and all actions)

The Firestore backend is modelled by a fixed ordered dataset (a list of
documents); a query cursor (a `QueryDocumentSnapshot` in the source) is
modelled by the index of the document it denotes.  Failures of the
server-side count aggregate and of page queries are modelled by an explicit
`Backend` record carrying the outcome of each store round-trip.  The
unbounded `while (hasMore)` drain loop of `fetchAllMedications` is modelled
with fuel chosen large enough to cover the dataset.
-/

namespace MedViewer

/-! ### Characters and strings (JS string operations used by the source) -/

/-- Left brace character, written by code to avoid brace literals. -/
def lbrace : Char := Char.ofNat 123

/-- Right brace character. -/
def rbrace : Char := Char.ofNat 125

/-- JS `String.prototype.toLowerCase`, modelled characterwise. -/
def lowerStr (s : String) : String := String.mk (s.toList.map Char.toLower)

/-- Substring containment on character lists. -/
def containsList (sub : List Char) : List Char → Bool
  | [] => sub.isEmpty
  | c :: rest => sub.isPrefixOf (c :: rest) || containsList sub rest

/-- JS `haystack.includes(needle)`: substring containment. -/
def jsIncludes (haystack needle : String) : Bool :=
  containsList needle.toList haystack.toList

/-- JS `String.prototype.trim` on the character list. -/
def trimChars (cs : List Char) : List Char :=
  ((cs.dropWhile Char.isWhitespace).reverse.dropWhile Char.isWhitespace).reverse

/-- The leading-format-code strip of `cleanMedicationName`:
the regex replace `name.replace(/^\x7b\d+\s+/, '')` on the character list. -/
def stripBraceCode (cs : List Char) : List Char :=
  match cs with
  | [] => []
  | c :: rest =>
    if c = lbrace then
      let digits := rest.takeWhile Char.isDigit
      let afterDigits := rest.dropWhile Char.isDigit
      let ws := afterDigits.takeWhile Char.isWhitespace
      let afterWs := afterDigits.dropWhile Char.isWhitespace
      if digits ≠ [] ∧ ws ≠ [] then afterWs else cs
    else cs

/-- The trailing-brace strip: the regex replace `cleaned.replace(/\x7d$/, '')`. -/
def stripTrailingBrace (cs : List Char) : List Char :=
  match cs.reverse with
  | c :: rest => if c = rbrace then rest.reverse else cs
  | [] => cs

/-- `name.startsWith('\x7b')` on the character list. -/
def headIsLbrace (cs : List Char) : Bool :=
  match cs with
  | c :: _ => c = lbrace
  | [] => false

/-- `cleanMedicationName` from `src/utils/formatters.ts`: removes a leading
format code such as `\x7b1 ` (and then a trailing `\x7d`) and trims. -/
def cleanMedicationName (name : String) : String :=
  if name = "" then ""
  else
    let cs := name.toList
    let cleaned := stripBraceCode cs
    let cleaned :=
      if headIsLbrace cs = true ∧ cleaned ≠ cs then
        stripTrailingBrace cleaned
      else cleaned
    String.mk (trimChars cleaned)

/-! ### Medication document schema (`src/types/medication.ts`)

Numeric JS values are modelled as rationals (`Rat`) for prices and as
naturals/integers for counts. -/

structure PricingStats where
  min_unit_price : Rat
  median_unit_price : Rat
  max_unit_price : Rat
  pricing_unit : String
  price_per_ml : Option Rat
  price_per_mg : Option Rat
  ndc_count : Nat
  deriving DecidableEq, Repr

structure ConversionValues where
  is_liquid : Bool
  package_size : Option Rat
  package_unit : Option String
  strength_val : Option Rat
  strength_unit : Option String
  scdc_rxcui : Option String
  data_source : String
  deriving DecidableEq, Repr

structure NdcLinks where
  ndc11_all : List String
  ndc11_preferred : List String
  deriving DecidableEq, Repr

structure Exemplar where
  ndc11 : String
  ndc_description : String
  unit_price : Rat
  pricing_unit : String
  reason_selected : String
  nadac_per_unit : Rat
  package_size : Option Rat
  package_description : Option String
  deriving DecidableEq, Repr

structure Classification where
  ingredient_name : Option String
  rxnorm_ingredient_rxcui : Option String
  atc_codes : List String
  deriving DecidableEq, Repr

structure DatasetVersions where
  nadac_week : Option String
  rxnorm_version : Option String
  fda_date : Option String
  deriving DecidableEq, Repr

structure MedicationDocument where
  rxcui : String
  name : String
  tty : String
  pricing_stats : PricingStats
  conversion_values : ConversionValues
  ndc_links : NdcLinks
  exemplars : List Exemplar
  classification : Classification
  dataset_versions : DatasetVersions
  deriving DecidableEq, Repr

/-! ### Firestore API model (`src/data/firestoreApi.ts`) -/

/-- The result record of `fetchMedicationsPage`.  A cursor
(`QueryDocumentSnapshot` in the source) is the index, in the ordered
dataset, of the document it denotes. -/
structure PaginatedResult where
  medications : List MedicationDocument
  totalCount : Nat
  hasMore : Bool
  lastDoc : Option Nat
  deriving DecidableEq, Repr

/-- The store backend: the ordered dataset (documents ordered by `rxcui`,
the order used by every page query), the outcome of the server-side count
aggregate, and — per cursor — whether the page query at that cursor throws. -/
structure Backend where
  dataset : List MedicationDocument
  countResult : Except String Nat
  pageFail : Option Nat → Option String

/-- `getMedicationCount`: the server-side count aggregate. -/
def getMedicationCountB (b : Backend) : Except String Nat := b.countResult

/-- The successful payload of `fetchMedicationsPage pageSize lastDocument`:
documents are taken from the position after the cursor; `totalCount` is the
internally fetched count with its failure caught and degraded to `0`;
`hasMore` is `snapshot.docs.length === pageSize`; `lastDoc` is the cursor of
the last returned document, `none` when no documents were returned. -/
def fetchPageCore (b : Backend) (pageSize : Nat) (lastDocument : Option Nat) :
    PaginatedResult :=
  let totalCount := match b.countResult with | .ok n => n | .error _ => 0
  let start := match lastDocument with | none => 0 | some i => i + 1
  let meds := (b.dataset.drop start).take pageSize
  { medications := meds
    totalCount := totalCount
    hasMore := decide (meds.length = pageSize)
    lastDoc := if meds.length > 0 then some (start + meds.length - 1) else none }

/-- `fetchMedicationsPage`: throws when the page query at this cursor
throws, otherwise returns the page payload. -/
def fetchMedicationsPageB (b : Backend) (pageSize : Nat)
    (lastDocument : Option Nat) : Except String PaginatedResult :=
  match b.pageFail lastDocument with
  | some e => .error e
  | none => .ok (fetchPageCore b pageSize lastDocument)

/-- The `while (hasMore)` drain loop of `fetchAllMedications` with page size
100, returning the list of successfully drained pages and, if a page query
threw, its message.  `fuel` bounds the number of iterations; the source loop
is unbounded, and callers pass fuel exceeding any possible iteration count. -/
def drainPages (b : Backend) : Nat → Option Nat →
    (List (List MedicationDocument)) × Option String
  | 0, _ => ([], none)
  | fuel + 1, cur =>
    match fetchMedicationsPageB b 100 cur with
    | .error e => ([], some e)
    | .ok r =>
      if r.hasMore then
        let rest := drainPages b fuel r.lastDoc
        (r.medications :: rest.1, rest.2)
      else ([r.medications], none)

/-- `fetchAllMedications`: drains every page and concatenates the results;
any page-query failure propagates.  (The internal count fetch for progress
reporting is caught; see `loadAllMedications` for its observable effect.) -/
def fetchAllMedicationsB (b : Backend) : Except String (List MedicationDocument) :=
  let out := drainPages b (b.dataset.length + 1) none
  match out.2 with
  | some e => .error e
  | none => .ok out.1.flatten

/-! ### Viewer state (`src/stores/MedicationViewerStore.ts`) -/

inductive SortField where
  | name
  | rxcui
  | median_price
  | ndc_count
  deriving DecidableEq, Repr

inductive SortDirection where
  | asc
  | desc
  deriving DecidableEq, Repr

inductive ViewMode where
  | cards
  | table
  deriving DecidableEq, Repr

inductive ActiveTab where
  | database
  | tests
  | resolver
  deriving DecidableEq, Repr

/-- The whole observable state of `MedicationViewerStore`.  The cursor cache
`lastDocuments : Map<number, QueryDocumentSnapshot>` is modelled as a map
from page index to cursor. -/
structure StoreState where
  medications : List MedicationDocument
  isLoading : Bool
  error : Option String
  totalCount : Nat
  isAuthenticated : Bool
  isLoadingAll : Bool
  loadingProgress : Nat
  allMedicationsLoaded : Bool
  currentPage : Nat
  pageSize : Nat
  lastDocuments : Nat → Option Nat
  hasMore : Bool
  searchQuery : String
  matchedOnly : Bool
  unmatchedOnly : Bool
  liquidsOnly : Bool
  solidsOnly : Bool
  minNdcCount : Int
  sortField : SortField
  sortDirection : SortDirection
  viewMode : ViewMode
  selectedMedication : Option MedicationDocument
  isDetailModalOpen : Bool
  activeTab : ActiveTab

/-- `Map.set` on the cursor cache. -/
def cacheSet (cache : Nat → Option Nat) (k v : Nat) : Nat → Option Nat :=
  fun n => if n = k then some v else cache n

/-- The field initializers of `MedicationViewerStore` (PAGE_SIZE = 100). -/
def initStore : StoreState where
  medications := []
  isLoading := false
  error := none
  totalCount := 0
  isAuthenticated := false
  isLoadingAll := false
  loadingProgress := 0
  allMedicationsLoaded := false
  currentPage := 1
  pageSize := 100
  lastDocuments := fun _ => none
  hasMore := true
  searchQuery := ""
  matchedOnly := false
  unmatchedOnly := false
  liquidsOnly := false
  solidsOnly := false
  minNdcCount := 0
  sortField := .name
  sortDirection := .asc
  viewMode := .cards
  selectedMedication := none
  isDetailModalOpen := false
  activeTab := .database

/-! ### Derived views -/

/-- `m.rxcui.startsWith('UNMATCHED_')`. -/
def isUnmatched (m : MedicationDocument) : Bool :=
  "UNMATCHED_".toList.isPrefixOf m.rxcui.toList

/-- The search predicate of `filteredMedications`: case-insensitive
substring match of the cleaned name, the identifier, or the ingredient name
(the optional chaining `?.` makes a missing ingredient a non-match) against
the already-lowercased query. -/
def matchesSearch (query : String) (m : MedicationDocument) : Bool :=
  jsIncludes (lowerStr (cleanMedicationName m.name)) query ||
  jsIncludes (lowerStr m.rxcui) query ||
  (match m.classification.ingredient_name with
   | some ing => jsIncludes (lowerStr ing) query
   | none => false)

/-- The `filteredMedications` computed view: the filters are applied one
after another, exactly as in the source. -/
def filteredMedications (s : StoreState) : List MedicationDocument :=
  let r0 := s.medications
  let r1 :=
    if trimChars s.searchQuery.toList ≠ [] then
      r0.filter (matchesSearch (lowerStr s.searchQuery))
    else r0
  let r2 := if s.matchedOnly then r1.filter (fun m => !isUnmatched m) else r1
  let r3 := if s.unmatchedOnly then r2.filter (fun m => isUnmatched m) else r2
  let r4 :=
    if s.liquidsOnly then r3.filter (fun m => m.conversion_values.is_liquid)
    else r3
  let r5 :=
    if s.solidsOnly then r4.filter (fun m => !m.conversion_values.is_liquid)
    else r4
  if s.minNdcCount > 0 then
    r5.filter (fun m => (m.ndc_links.ndc11_all.length : Int) ≥ s.minNdcCount)
  else r5

/-- Lexicographic code-point comparison, the model of
`String.prototype.localeCompare`: negative, zero, or positive. -/
def lexCmp : List Char → List Char → Int
  | [], [] => 0
  | [], _ :: _ => -1
  | _ :: _, [] => 1
  | a :: as, b :: bs => if a < b then -1 else if b < a then 1 else lexCmp as bs

/-- The body of the sort comparator of `sortedMedications`, before the
direction sign is applied. -/
def baseCompare (f : SortField) (a b : MedicationDocument) : Rat :=
  match f with
  | .name =>
    ((lexCmp (cleanMedicationName a.name).toList
        (cleanMedicationName b.name).toList : Int) : Rat)
  | .rxcui => ((lexCmp a.rxcui.toList b.rxcui.toList : Int) : Rat)
  | .median_price =>
    a.pricing_stats.median_unit_price - b.pricing_stats.median_unit_price
  | .ndc_count =>
    (((a.ndc_links.ndc11_all.length : Int) -
      (b.ndc_links.ndc11_all.length : Int) : Int) : Rat)

/-- `const dir = this.sortDirection === 'asc' ? 1 : -1`. -/
def dirVal : SortDirection → Rat
  | .asc => 1
  | .desc => -1

/-- The full comparator passed to `sorted.sort`. -/
def medComparator (f : SortField) (d : SortDirection)
    (a b : MedicationDocument) : Rat :=
  baseCompare f a b * dirVal d

/-- The comparator as a "should `a` come no later than `b`" relation; JS
`Array.prototype.sort` is a stable sort consistent with this relation, and
a stable sort by a total preorder has a unique result, so any stable sort
models it. -/
def medLe (f : SortField) (d : SortDirection)
    (a b : MedicationDocument) : Prop :=
  medComparator f d a b ≤ 0

instance (f : SortField) (d : SortDirection) : DecidableRel (medLe f d) :=
  fun a b => inferInstanceAs (Decidable (medComparator f d a b ≤ 0))

/-- The `sortedMedications` computed view: a stable sort of the filtered
list by the active comparator. -/
def sortedMedications (s : StoreState) : List MedicationDocument :=
  (filteredMedications s).insertionSort (medLe s.sortField s.sortDirection)

/-- The record returned by the `stats` computed view. -/
structure Stats where
  total : Nat
  pageCount : Nat
  matched : Nat
  unmatched : Nat
  liquids : Nat
  solids : Nat
  totalNdcs : Nat
  avgMedianPrice : Rat
  deriving DecidableEq, Repr

/-- The `stats` computed view; the average price is taken over the records
whose median unit price is strictly positive. -/
def stats (s : StoreState) : Stats :=
  let list := s.medications
  let matched := list.filter (fun m => !isUnmatched m)
  let liquids := list.filter (fun m => m.conversion_values.is_liquid)
  let totalNdcs := list.foldl (fun sum m => sum + m.ndc_links.ndc11_all.length) 0
  let pricesWithValue :=
    list.filter (fun m => m.pricing_stats.median_unit_price > 0)
  let avgPrice : Rat :=
    if pricesWithValue.length > 0 then
      (pricesWithValue.foldl
        (fun sum m => sum + m.pricing_stats.median_unit_price) 0) /
        (pricesWithValue.length : Rat)
    else 0
  { total := s.totalCount
    pageCount := list.length
    matched := matched.length
    unmatched := list.length - matched.length
    liquids := liquids.length
    solids := list.length - liquids.length
    totalNdcs := totalNdcs
    avgMedianPrice := avgPrice }

/-- `totalPages = Math.ceil(totalCount / pageSize)`. -/
def totalPages (s : StoreState) : Nat :=
  (s.totalCount + s.pageSize - 1) / s.pageSize

def canGoPrev (s : StoreState) : Bool := decide (s.currentPage > 1)

def canGoNext (s : StoreState) : Bool :=
  s.hasMore || decide (s.currentPage < totalPages s)

/-! ### Actions -/

/-- The cursor-bridging loop of `loadPage`
(`for (let i = 1; i < page; i++) ...`): starting at index `i` with `fuel`
iterations left, returns the updated cursor cache, either the cursor
reached (`ok`) or the message of the page query that threw (`error`), and
the number of page fetches issued.  A cached cursor is reused without a
fetch; a fetched page caches its cursor when one was returned. -/
def bridge (b : Backend) (pageSize : Nat) :
    Nat → Nat → (Nat → Option Nat) → Option Nat →
    ((Nat → Option Nat) × Except String (Option Nat) × Nat)
  | 0, _, cache, cur => (cache, .ok cur, 0)
  | fuel + 1, i, cache, cur =>
    match cache i with
    | some d => bridge b pageSize fuel (i + 1) cache (some d)
    | none =>
      match fetchMedicationsPageB b pageSize cur with
      | .error e => (cache, .error e, 1)
      | .ok r =>
        match r.lastDoc with
        | some d =>
          let out := bridge b pageSize fuel (i + 1) (cacheSet cache i d) (some d)
          (out.1, out.2.1, out.2.2 + 1)
        | none =>
          let out := bridge b pageSize fuel (i + 1) cache cur
          (out.1, out.2.1, out.2.2 + 1)

/-- `loadPage(page)`.  Returns the state after the action together with the
number of page fetches (`fetchMedicationsPage` round-trips) it issued.
Mirrors the source: the re-entrancy guard on `isLoading`, the `page < 1`
guard, the direct (unguarded) count fetch, the cursor-cache lookup for page
`page − 1` with the bridging walk on a miss, the final page fetch, and the
commit or the catch that records the error and clears the loading flag. -/
def loadPage (b : Backend) (s : StoreState) (page : Nat) : StoreState × Nat :=
  if s.isLoading then (s, 0)
  else if page < 1 then (s, 0)
  else
    let s1 := { s with isLoading := true, error := none }
    match getMedicationCountB b with
    | .error e => ({ s1 with error := some e, isLoading := false }, 0)
    | .ok count =>
      let bres :=
        if page > 1 then
          match s1.lastDocuments (page - 1) with
          | some d => (s1.lastDocuments, (.ok (some d) : Except String (Option Nat)), 0)
          | none => bridge b s1.pageSize (page - 1) 1 s1.lastDocuments none
        else (s1.lastDocuments, (.ok none : Except String (Option Nat)), 0)
      match bres.2.1 with
      | .error e =>
        ({ s1 with lastDocuments := bres.1, error := some e, isLoading := false },
          bres.2.2)
      | .ok lastDoc =>
        match fetchMedicationsPageB b s1.pageSize lastDoc with
        | .error e =>
          ({ s1 with lastDocuments := bres.1, error := some e, isLoading := false },
            bres.2.2 + 1)
        | .ok r =>
          ({ s1 with
              medications := r.medications
              totalCount := count
              hasMore := r.hasMore
              currentPage := page
              lastDocuments :=
                match r.lastDoc with
                | some d => cacheSet bres.1 page d
                | none => bres.1
              isLoading := false },
            bres.2.2 + 1)

def nextPage (b : Backend) (s : StoreState) : StoreState × Nat :=
  if canGoNext s then loadPage b s (s.currentPage + 1) else (s, 0)

def prevPage (b : Backend) (s : StoreState) : StoreState × Nat :=
  if canGoPrev s then loadPage b s (s.currentPage - 1) else (s, 0)

def firstPage (b : Backend) (s : StoreState) : StoreState × Nat :=
  loadPage b s 1

/-- `refresh()`: clears the cursor cache and the bulk-load flag, then loads
page 1. -/
def refresh (b : Backend) (s : StoreState) : StoreState × Nat :=
  loadPage b
    { s with lastDocuments := fun _ => none, allMedicationsLoaded := false } 1

/-- `loadAllMedications()`.  The progress callback runs after each drained
page, setting `loadingProgress` to the number of records loaded so far and,
when the count aggregate succeeded, `totalCount` to that count; a
successful drain then commits the concatenation of the pages.  Returns the
state and the number of page fetches issued. -/
def loadAllMedications (b : Backend) (s : StoreState) : StoreState × Nat :=
  if s.isLoadingAll || s.isLoading then (s, 0)
  else
    let s1 := { s with isLoadingAll := true, loadingProgress := 0, error := none }
    let out := drainPages b (b.dataset.length + 1) none
    let pages := out.1
    let fetches := pages.length + (match out.2 with | some _ => 1 | none => 0)
    let countVal : Option Nat :=
      match b.countResult with | .ok n => some n | .error _ => none
    let s2 :=
      { s1 with
          loadingProgress :=
            if pages.length > 0 then pages.flatten.length else s1.loadingProgress
          totalCount :=
            match countVal with
            | some c => if pages.length > 0 then c else s1.totalCount
            | none => s1.totalCount }
    match out.2 with
    | some e => ({ s2 with error := some e, isLoadingAll := false }, fetches)
    | none =>
      let allMeds := pages.flatten
      ({ s2 with
          medications := allMeds
          totalCount := allMeds.length
          allMedicationsLoaded := true
          isLoadingAll := false
          currentPage := 1
          hasMore := false },
        fetches)

def setSearchQuery (s : StoreState) (query : String) : StoreState :=
  { s with searchQuery := query }

def toggleMatchedOnly (s : StoreState) : StoreState :=
  let s1 := { s with matchedOnly := !s.matchedOnly }
  if s1.matchedOnly then { s1 with unmatchedOnly := false } else s1

def toggleUnmatchedOnly (s : StoreState) : StoreState :=
  let s1 := { s with unmatchedOnly := !s.unmatchedOnly }
  if s1.unmatchedOnly then { s1 with matchedOnly := false } else s1

def toggleLiquidsOnly (s : StoreState) : StoreState :=
  let s1 := { s with liquidsOnly := !s.liquidsOnly }
  if s1.liquidsOnly then { s1 with solidsOnly := false } else s1

def toggleSolidsOnly (s : StoreState) : StoreState :=
  let s1 := { s with solidsOnly := !s.solidsOnly }
  if s1.solidsOnly then { s1 with liquidsOnly := false } else s1

/-- `setMinNdcCount(count)`: stores `Math.max(0, count)`. -/
def setMinNdcCount (s : StoreState) (count : Int) : StoreState :=
  { s with minNdcCount := max 0 count }

/-- `setSortField(field)`: the active field toggles the direction, a new
field resets the direction to ascending. -/
def setSortField (s : StoreState) (field : SortField) : StoreState :=
  if s.sortField = field then
    { s with sortDirection :=
        if s.sortDirection = .asc then .desc else .asc }
  else
    { s with sortField := field, sortDirection := .asc }

def setViewMode (s : StoreState) (mode : ViewMode) : StoreState :=
  { s with viewMode := mode }

def openDetailModal (s : StoreState) (m : MedicationDocument) : StoreState :=
  { s with selectedMedication := some m, isDetailModalOpen := true }

def closeDetailModal (s : StoreState) : StoreState :=
  { s with isDetailModalOpen := false, selectedMedication := none }

def resetFilters (s : StoreState) : StoreState :=
  { s with
      searchQuery := ""
      matchedOnly := false
      unmatchedOnly := false
      liquidsOnly := false
      solidsOnly := false
      minNdcCount := 0 }

def clearError (s : StoreState) : StoreState := { s with error := none }

def setActiveTab (s : StoreState) (tab : ActiveTab) : StoreState :=
  { s with activeTab := tab }

/-- `initialize` of the store: the configuration check, the anonymous auth bootstrap
(outcome passed in), then the initial page-1 load. -/
def initApp (b : Backend) (configured : Bool)
    (auth : Except String Unit) (s : StoreState) : StoreState × Nat :=
  if !configured then
    ({ s with error := some "Firebase is not configured. Please check your .env file." }, 0)
  else
    match auth with
    | .ok _ => loadPage b { s with isAuthenticated := true } 1
    | .error e => ({ s with error := some e, isAuthenticated := false }, 0)

/-- `loadPage` called for pages `1, 2, …, K` in order, starting from `s`. -/
def loadSeq (b : Backend) (s : StoreState) : Nat → StoreState
  | 0 => s
  | k + 1 => (loadPage b (loadSeq b s k) (k + 1)).1

/-- A backend on which every store round-trip succeeds. -/
def okBackend (ds : List MedicationDocument) (c : Nat) : Backend where
  dataset := ds
  countResult := .ok c
  pageFail := fun _ => none

/-- The cursor cache after pages `1..K` have been loaded in order with page
size `P` over a sufficiently long dataset: page `i` maps to the position of
its last document. -/
def cacheAfter (P K : Nat) : Nat → Option Nat :=
  fun i => if 1 ≤ i ∧ i ≤ K then some (i * P - 1) else none

/-! ### Concrete fixtures used by witnesses and counterexamples -/

/-- A document with the given identifier, name, median price, form flag,
linked codes and ingredient; the remaining fields are inert defaults. -/
def mkMed (rxcui name : String) (median : Rat) (liquid : Bool)
    (ndcs : List String) (ingredient : Option String) : MedicationDocument where
  rxcui := rxcui
  name := name
  tty := "SCD"
  pricing_stats :=
    { min_unit_price := median
      median_unit_price := median
      max_unit_price := median
      pricing_unit := "EA"
      price_per_ml := none
      price_per_mg := none
      ndc_count := ndcs.length }
  conversion_values :=
    { is_liquid := liquid
      package_size := none
      package_unit := none
      strength_val := none
      strength_unit := none
      scdc_rxcui := none
      data_source := "RXNSAT" }
  ndc_links := { ndc11_all := ndcs, ndc11_preferred := [] }
  exemplars := []
  classification :=
    { ingredient_name := ingredient
      rxnorm_ingredient_rxcui := none
      atc_codes := [] }
  dataset_versions :=
    { nadac_week := none, rxnorm_version := none, fda_date := none }

def medA : MedicationDocument :=
  mkMed "100" "amoxicillin 250 MG Oral Capsule" (mkRat 4 5) false ["00000000001"]
    (some "amoxicillin")

def medB : MedicationDocument :=
  mkMed "200" "ibuprofen 200 MG Oral Tablet" 10 false
    ["00000000002", "00000000003"] (some "ibuprofen")

def medC : MedicationDocument :=
  mkMed "UNMATCHED_x1" "mystery elixir" 0 true [] none

def medD : MedicationDocument :=
  mkMed "300" "lisinopril 10 MG Oral Tablet" (mkRat 1 2) false ["00000000004"]
    (some "lisinopril")

/-- Two documents sharing the same name (a sort-key tie) but distinct. -/
def medT1 : MedicationDocument :=
  mkMed "400" "samename 5 MG Oral Tablet" 1 false [] none

def medT2 : MedicationDocument :=
  mkMed "500" "samename 5 MG Oral Tablet" 2 false [] none

/-- A store state holding the two positively priced fixtures. -/
def sliceAB : StoreState := { initStore with medications := [medA, medB] }

/-- A store state with a tied name sort key among distinct records. -/
def tieState : StoreState :=
  { initStore with
      medications := [medT1, medT2]
      sortField := .name
      sortDirection := .asc }

/-- A store state sorting three distinctly priced records by median price. -/
def priceState : StoreState :=
  { initStore with medications := [medB, medA, medD], sortField := .median_price }

/-- A backend whose count succeeds but whose every page query throws. -/
def pageFailBackend : Backend where
  dataset := [medA]
  countResult := .ok 1
  pageFail := fun _ => some "network down"

/-! ### Helper lemmas -/

/-- When no page query throws, the drain loop reports no error. -/
theorem drainPages_no_error (b : Backend) (hpf : b.pageFail = fun _ => none) :
    ∀ (fuel : Nat) (cur : Option Nat), (drainPages b fuel cur).2 = none := by
  intro fuel
  induction fuel with
  | zero => intro cur; rfl
  | succ n ih =>
    intro cur
    simp only [drainPages, fetchMedicationsPageB, hpf]
    split
    · simp [ih]
    · rfl

/-- `loadPage` never touches the `minNdcCount` field. -/
theorem loadPage_minNdcCount (b : Backend) (s : StoreState) (page : Nat) :
    (loadPage b s page).1.minNdcCount = s.minNdcCount := by
  unfold loadPage
  dsimp only
  repeat' split <;> try rfl

/-- `loadAllMedications` never touches the `minNdcCount` field. -/
theorem loadAllMedications_minNdcCount (b : Backend) (s : StoreState) :
    (loadAllMedications b s).1.minNdcCount = s.minNdcCount := by
  unfold loadAllMedications
  dsimp only
  repeat' split <;> try rfl

/-- A bridging walk that ends in an error issued at least one page fetch. -/
theorem bridge_error_fetches (b : Backend) (P : Nat) :
    ∀ (fuel i : Nat) (cache : Nat → Option Nat) (cur : Option Nat) (e : String),
      (bridge b P fuel i cache cur).2.1 = .error e →
      1 ≤ (bridge b P fuel i cache cur).2.2 := by
  intro fuel
  induction fuel with
  | zero => intro i cache cur e h; simp [bridge] at h
  | succ n ih =>
    intro i cache cur e h
    simp only [bridge] at h ⊢
    cases hci : cache i with
    | some d =>
      simp only [hci] at h ⊢
      exact ih _ _ _ _ h
    | none =>
      simp only [hci] at h ⊢
      cases hf : fetchMedicationsPageB b P cur with
      | error m => simp [hf]
      | ok r =>
        simp only [hf] at h ⊢
        cases hld : r.lastDoc <;> simp [hld] at h ⊢

/-- A `loadPage` run that passes the guards and whose count fetch succeeds
issues at least one page fetch (`isLoadingAll` does not stop it). -/
theorem loadPage_fetches_pos (b : Backend) (s : StoreState) (page c : Nat)
    (hL : s.isLoading = false) (hp : 1 ≤ page) (hc : b.countResult = .ok c) :
    1 ≤ (loadPage b s page).2 := by
  have h1 : ¬ page < 1 := by omega
  unfold loadPage getMedicationCountB
  simp only [hL, hc, h1, if_false, Bool.false_eq_true]
  by_cases hpg : page > 1
  · simp only [hpg, if_true]
    cases hcache : s.lastDocuments (page - 1) with
    | some d =>
      simp only [hcache]
      cases hf : fetchMedicationsPageB b s.pageSize (some d) <;> simp [hf]
    | none =>
      simp only [hcache]
      cases hb : (bridge b s.pageSize (page - 1) 1 s.lastDocuments none).2.1 with
      | error e =>
        have hpos := bridge_error_fetches b s.pageSize (page - 1) 1
          s.lastDocuments none e hb
        simp only [hb]
        simpa using hpos
      | ok cur2 =>
        simp only [hb]
        cases hf : fetchMedicationsPageB b s.pageSize cur2 <;> simp [hf]
  · simp only [hpg, if_false]
    cases hf : fetchMedicationsPageB b s.pageSize none <;> simp [hf]

/-! ### C3 — hasMore boundary -/

/-- C3: for every `fetchMedicationsPage` call that returns a result, the
result has `hasMore = true` exactly when the number of returned records
equals `pageSize`; in particular a short page reports `hasMore = false` and
a full page reports `hasMore = true` regardless of whether a successor page
exists. -/
theorem C3_hasMore_boundary (b : Backend) (pageSize : Nat) (cur : Option Nat)
    (r : PaginatedResult) (h : fetchMedicationsPageB b pageSize cur = .ok r) :
    r.hasMore = true ↔ r.medications.length = pageSize := by
  unfold fetchMedicationsPageB at h
  cases hpf : b.pageFail cur with
  | some e => rw [hpf] at h; exact absurd h (by simp)
  | none =>
    rw [hpf] at h
    simp only [Except.ok.injEq] at h
    subst h
    simp [fetchPageCore]

/-- Witness for C3 on a three-document dataset with page size 2: the first
page is full and reports `hasMore = true` with two records. -/
theorem C3_hasMore_boundary_witness :
    fetchMedicationsPageB (okBackend [medA, medB, medC] 3) 2 none =
      .ok (fetchPageCore (okBackend [medA, medB, medC] 3) 2 none) ∧
    ((fetchPageCore (okBackend [medA, medB, medC] 3) 2 none).hasMore = true ↔
      (fetchPageCore (okBackend [medA, medB, medC] 3) 2 none).medications.length = 2) :=
  ⟨rfl, C3_hasMore_boundary (okBackend [medA, medB, medC] 3) 2 none _ rfl⟩

/-! ### C10 — minNdcCount clamping and non-negativity -/

/-- C10: `setMinNdcCount` stores `max 0 c`, so a negative argument is
clamped to `0`; the invariant `0 ≤ minNdcCount` holds initially and is
preserved by every store operation. -/
theorem C10_minNdcCount_nonneg (b : Backend) (s : StoreState) (c : Int)
    (q : String) (f : SortField) (mo : ViewMode) (m : MedicationDocument)
    (tab : ActiveTab) (page : Nat) (cfg : Bool) (auth : Except String Unit)
    (hs : 0 ≤ s.minNdcCount) :
    (setMinNdcCount s c).minNdcCount = max 0 c ∧
    (c < 0 → (setMinNdcCount s c).minNdcCount = 0) ∧
    0 ≤ initStore.minNdcCount ∧
    0 ≤ (setMinNdcCount s c).minNdcCount ∧
    0 ≤ (setSearchQuery s q).minNdcCount ∧
    0 ≤ (toggleMatchedOnly s).minNdcCount ∧
    0 ≤ (toggleUnmatchedOnly s).minNdcCount ∧
    0 ≤ (toggleLiquidsOnly s).minNdcCount ∧
    0 ≤ (toggleSolidsOnly s).minNdcCount ∧
    0 ≤ (setSortField s f).minNdcCount ∧
    0 ≤ (setViewMode s mo).minNdcCount ∧
    0 ≤ (openDetailModal s m).minNdcCount ∧
    0 ≤ (closeDetailModal s).minNdcCount ∧
    0 ≤ (resetFilters s).minNdcCount ∧
    0 ≤ (clearError s).minNdcCount ∧
    0 ≤ (setActiveTab s tab).minNdcCount ∧
    0 ≤ (loadPage b s page).1.minNdcCount ∧
    0 ≤ (nextPage b s).1.minNdcCount ∧
    0 ≤ (prevPage b s).1.minNdcCount ∧
    0 ≤ (firstPage b s).1.minNdcCount ∧
    0 ≤ (refresh b s).1.minNdcCount ∧
    0 ≤ (loadAllMedications b s).1.minNdcCount ∧
    0 ≤ (initApp b cfg auth s).1.minNdcCount := by
  refine ⟨rfl, fun hneg => ?_, ?_, ?_, hs, ?_, ?_, ?_, ?_, ?_, hs, hs, hs, ?_,
    hs, hs, ?_, ?_, ?_, ?_, ?_, ?_, ?_⟩
  · simp [setMinNdcCount]; omega
  · simp [initStore]
  · simp [setMinNdcCount]
  · unfold toggleMatchedOnly; dsimp only; split <;> exact hs
  · unfold toggleUnmatchedOnly; dsimp only; split <;> exact hs
  · unfold toggleLiquidsOnly; dsimp only; split <;> exact hs
  · unfold toggleSolidsOnly; dsimp only; split <;> exact hs
  · unfold setSortField; split <;> exact hs
  · simp [resetFilters]
  · rw [loadPage_minNdcCount]; exact hs
  · unfold nextPage; split
    · rw [loadPage_minNdcCount]; exact hs
    · exact hs
  · unfold prevPage; split
    · rw [loadPage_minNdcCount]; exact hs
    · exact hs
  · unfold firstPage; rw [loadPage_minNdcCount]; exact hs
  · unfold refresh; rw [loadPage_minNdcCount]; exact hs
  · rw [loadAllMedications_minNdcCount]; exact hs
  · unfold initApp; split
    · exact hs
    · split
      · rw [loadPage_minNdcCount]; exact hs
      · exact hs

/-- Witness for C10 at the initial state with the negative argument `-3`. -/
theorem C10_minNdcCount_nonneg_witness :
    0 ≤ initStore.minNdcCount ∧
    (setMinNdcCount initStore (-3)).minNdcCount = max 0 (-3) ∧
    0 ≤ (setMinNdcCount initStore (-3)).minNdcCount := by
  have h := C10_minNdcCount_nonneg (okBackend [] 0) initStore (-3) "" .name
    .cards medA .database 1 true (.ok ()) (by decide)
  exact ⟨h.2.2.1, h.1, h.2.2.2.1⟩

/-! ### C2 — count-failure degradation (corrected) -/

/-- A backend whose count aggregate fails but whose page queries succeed. -/
def cntFailBackend : Backend where
  dataset := [medA]
  countResult := .error "count failed"
  pageFail := fun _ => none

/-- Counterexample to C2 as stated: with the count aggregate failing and the
page query succeeding, `loadPage(1)` does NOT complete successfully — the
failure is surfaced in the error slot, no page fetch is issued, and no
records are loaded. -/
theorem C2_counterexample :
    (loadPage cntFailBackend initStore 1).1.error = some "count failed" ∧
    (loadPage cntFailBackend initStore 1).1.medications = [] ∧
    (loadPage cntFailBackend initStore 1).2 = 0 := by decide

/-- C2 (amended): a count failure inside `fetchMedicationsPage` degrades to
`totalCount = 0` without failing the page query, and `fetchAllMedications`
likewise succeeds; but `loadPage` fetches the count directly outside that
guard, so the failure aborts the page load with the message in the
Controller's error slot, before any page fetch. -/
theorem C2_count_degradation (b : Backend) (P : Nat) (cur : Option Nat)
    (m : String) (s : StoreState) (page : Nat)
    (hc : b.countResult = .error m) (hpf : b.pageFail = fun _ => none)
    (hL : s.isLoading = false) (hp : 1 ≤ page) :
    fetchMedicationsPageB b P cur = .ok (fetchPageCore b P cur) ∧
    (fetchPageCore b P cur).totalCount = 0 ∧
    (fetchPageCore b P cur).medications =
      (b.dataset.drop (match cur with | none => 0 | some i => i + 1)).take P ∧
    fetchAllMedicationsB b =
      .ok ((drainPages b (b.dataset.length + 1) none).1.flatten) ∧
    (loadPage b s page).1.error = some m ∧
    (loadPage b s page).1.medications = s.medications ∧
    (loadPage b s page).2 = 0 := by
  have h1 : ¬ page < 1 := by omega
  refine ⟨?_, ?_, rfl, ?_, ?_, ?_, ?_⟩
  · simp [fetchMedicationsPageB, hpf]
  · simp [fetchPageCore, hc]
  · unfold fetchAllMedicationsB
    dsimp only
    rw [drainPages_no_error b hpf]
  · unfold loadPage getMedicationCountB
    simp [hL, hc, h1]
  · unfold loadPage getMedicationCountB
    simp [hL, hc, h1]
  · unfold loadPage getMedicationCountB
    simp [hL, hc, h1]

/-- Witness for C2 (amended) on the concrete failing-count backend. -/
theorem C2_count_degradation_witness :
    (fetchPageCore cntFailBackend 100 none).totalCount = 0 ∧
    fetchAllMedicationsB cntFailBackend =
      .ok ((drainPages cntFailBackend (cntFailBackend.dataset.length + 1) none).1.flatten) ∧
    (loadPage cntFailBackend initStore 1).1.error = some "count failed" := by
  have h := C2_count_degradation cntFailBackend 100 none "count failed"
    initStore 1 rfl rfl rfl (by decide)
  exact ⟨h.2.1, h.2.2.2.1, h.2.2.2.2.1⟩

/-! ### C4 — single-flight load guard (corrected) -/

/-- Counterexample to C4 as stated: with `isLoadingAll = true` (and
`isLoading = false`) `loadPage` is NOT rejected — it issues a page fetch and
mutates the loaded records. -/
theorem C4_counterexample :
    (loadPage (okBackend [medA] 1) { initStore with isLoadingAll := true } 1).2 = 1 ∧
    (loadPage (okBackend [medA] 1)
        { initStore with isLoadingAll := true } 1).1.medications = [medA] ∧
    ({ initStore with isLoadingAll := true } : StoreState).medications = [] := by
  decide

/-- C4 (amended): `loadPage` while `isLoading = true` returns with no fetch
and no state change, and `loadAllMedications` while either flag is set
returns with no fetch and no state change; but `loadPage` is not guarded on
`isLoadingAll`: when only `isLoadingAll` is set (and the count succeeds) it
proceeds and issues at least one page fetch. -/
theorem C4_single_flight (b : Backend) (s sa : StoreState) (page c : Nat)
    (hL : s.isLoading = true)
    (hG : sa.isLoadingAll = true ∨ sa.isLoading = true) :
    loadPage b s page = (s, 0) ∧
    loadAllMedications b sa = (sa, 0) ∧
    (∀ s2 : StoreState, s2.isLoadingAll = true → s2.isLoading = false →
      b.countResult = .ok c → 1 ≤ page → 1 ≤ (loadPage b s2 page).2) := by
  refine ⟨?_, ?_, ?_⟩
  · unfold loadPage
    simp [hL]
  · unfold loadAllMedications
    rcases hG with h | h <;> simp [h]
  · intro s2 hA2 hL2 hc hp
    exact loadPage_fetches_pos b s2 page c hL2 hp hc

/-- Witness for C4 (amended) at concrete loading states. -/
theorem C4_single_flight_witness :
    loadPage (okBackend [medA] 1) { initStore with isLoading := true } 1 =
      ({ initStore with isLoading := true }, 0) ∧
    loadAllMedications (okBackend [medA] 1) { initStore with isLoadingAll := true } =
      ({ initStore with isLoadingAll := true }, 0) ∧
    1 ≤ (loadPage (okBackend [medA] 1) { initStore with isLoadingAll := true } 1).2 := by
  have h := C4_single_flight (okBackend [medA] 1)
    { initStore with isLoading := true } { initStore with isLoadingAll := true }
    1 1 rfl (Or.inl rfl)
  exact ⟨h.1, h.2.1, h.2.2 { initStore with isLoadingAll := true } rfl rfl rfl (by decide)⟩

/-! ### C8 — stats exclusion rule -/

/-- The `reduce` of the source is a left fold; it sums the mapped values. -/
theorem foldl_add_map (g : MedicationDocument → Rat) :
    ∀ (l : List MedicationDocument) (init : Rat),
      l.foldl (fun sum m => sum + g m) init = init + (l.map g).sum := by
  intro l
  induction l with
  | nil => intro init; simp
  | cons m t ih =>
    intro init
    simp only [List.foldl_cons, List.map_cons, List.sum_cons, ih]
    ring

/-- C8: the average-median-price statistic is the arithmetic mean of
`median_unit_price` over exactly the records with a strictly positive
median price; a zero-priced record changes neither numerator nor
denominator, and the statistic is `0` when no record has a positive median
price. -/
theorem C8_stats_exclusion (s : StoreState) (r : MedicationDocument)
    (hr : r.pricing_stats.median_unit_price = 0) :
    ((stats s).avgMedianPrice =
      if s.medications.filter (fun m => m.pricing_stats.median_unit_price > 0) = [] then 0
      else ((s.medications.filter
              (fun m => m.pricing_stats.median_unit_price > 0)).map
              (fun m => m.pricing_stats.median_unit_price)).sum /
        (((s.medications.filter
            (fun m => m.pricing_stats.median_unit_price > 0)).length : Nat) : Rat)) ∧
    (stats { s with medications := r :: s.medications }).avgMedianPrice =
      (stats s).avgMedianPrice ∧
    ((∀ m ∈ s.medications, ¬ m.pricing_stats.median_unit_price > 0) →
      (stats s).avgMedianPrice = 0) := by
  refine ⟨?_, ?_, ?_⟩
  · unfold stats
    dsimp only
    rw [foldl_add_map]
    by_cases hnil :
        s.medications.filter (fun m => m.pricing_stats.median_unit_price > 0) = []
    · rw [if_pos hnil, hnil]
      simp
    · rw [if_neg hnil]
      have hlen : 0 < (s.medications.filter
          (fun m => m.pricing_stats.median_unit_price > 0)).length := by
        cases hq : s.medications.filter
            (fun m => m.pricing_stats.median_unit_price > 0) with
        | nil => exact absurd hq hnil
        | cons a t => simp [hq]
      rw [if_pos hlen]
      simp
  · unfold stats
    dsimp only
    have hpred : (fun m => decide (m.pricing_stats.median_unit_price > 0)) r = false := by
      simp [hr]
    rw [List.filter_cons_of_neg (by simpa using hpred)]
  · intro hall
    unfold stats
    dsimp only
    rw [List.filter_eq_nil_iff.mpr (by simpa using hall)]
    simp

/-- Witness for C8 on a slice with prices 0.8, 10 and 0 (the zero-priced
record is excluded): the average is 27/5. -/
theorem C8_stats_exclusion_witness :
    (stats { sliceAB with medications := medC :: sliceAB.medications }).avgMedianPrice =
      (stats sliceAB).avgMedianPrice ∧
    (stats sliceAB).avgMedianPrice = 27/5 := by
  have h := C8_stats_exclusion sliceAB medC rfl
  refine ⟨h.2.1, ?_⟩
  have hfil : sliceAB.medications.filter
      (fun m => m.pricing_stats.median_unit_price > 0) = [medA, medB] := by
    norm_num [sliceAB, initStore, medA, medB, mkMed, Rat.mkRat_eq_div]
  rw [h.1, hfil, if_neg (List.cons_ne_nil _ _)]
  norm_num [medA, medB, mkMed, Rat.mkRat_eq_div]

/-! ### C5 — filter conjunction and exclusive toggles -/

set_option maxHeartbeats 2000000 in
/-- C5: a loaded record appears in `filteredMedications` exactly when it
satisfies every individually enabled predicate (search text against cleaned
name / identifier / ingredient, matched-only, unmatched-only, liquid-only,
solid-only, and the minimum linked-code bound); and after any toggle, the
matched/unmatched pair is never both enabled, and likewise for
liquid/solid. -/
theorem C5_filter_conjunction (s : StoreState) (m : MedicationDocument) :
    (m ∈ filteredMedications s ↔
      m ∈ s.medications ∧
      (trimChars s.searchQuery.toList ≠ [] →
        matchesSearch (lowerStr s.searchQuery) m = true) ∧
      (s.matchedOnly = true → isUnmatched m = false) ∧
      (s.unmatchedOnly = true → isUnmatched m = true) ∧
      (s.liquidsOnly = true → m.conversion_values.is_liquid = true) ∧
      (s.solidsOnly = true → m.conversion_values.is_liquid = false) ∧
      (s.minNdcCount > 0 →
        (m.ndc_links.ndc11_all.length : Int) ≥ s.minNdcCount)) ∧
    ((toggleMatchedOnly s).matchedOnly && (toggleMatchedOnly s).unmatchedOnly)
      = false ∧
    ((toggleUnmatchedOnly s).matchedOnly && (toggleUnmatchedOnly s).unmatchedOnly)
      = false ∧
    ((toggleLiquidsOnly s).liquidsOnly && (toggleLiquidsOnly s).solidsOnly)
      = false ∧
    ((toggleSolidsOnly s).liquidsOnly && (toggleSolidsOnly s).solidsOnly)
      = false := by
  refine ⟨?_, ?_, ?_, ?_, ?_⟩
  · simp only [filteredMedications]
    split_ifs <;> simp_all [List.mem_filter] <;> tauto
  · unfold toggleMatchedOnly; dsimp only; split <;> simp_all
  · unfold toggleUnmatchedOnly; dsimp only; split <;> simp_all
  · unfold toggleLiquidsOnly; dsimp only; split <;> simp_all
  · unfold toggleSolidsOnly; dsimp only; split <;> simp_all

/-- Witness for C5: with matched-only enabled, the matched record `medA`
passes the filter, and toggling never enables an exclusive pair together. -/
theorem C5_filter_conjunction_witness :
    medA ∈ filteredMedications { sliceAB with matchedOnly := true } ∧
    ((toggleMatchedOnly sliceAB).matchedOnly &&
      (toggleMatchedOnly sliceAB).unmatchedOnly) = false := by
  refine ⟨(C5_filter_conjunction { sliceAB with matchedOnly := true } medA).1.mpr
    (by decide), (C5_filter_conjunction sliceAB medA).2.1⟩

/-! ### C9 — bulk-load commit semantics -/

/-- C9: a successful `loadAllMedications` run commits the concatenation of
all drained pages, overwrites `totalCount` with its length, resets
`currentPage` to 1, clears `hasMore`, sets `allMedicationsLoaded`, and
clears `isLoadingAll`. -/
theorem C9_bulk_commit (b : Backend) (s : StoreState)
    (hA : s.isLoadingAll = false) (hL : s.isLoading = false)
    (hpf : b.pageFail = fun _ => none) :
    (loadAllMedications b s).1.medications =
      (drainPages b (b.dataset.length + 1) none).1.flatten ∧
    (loadAllMedications b s).1.totalCount =
      (drainPages b (b.dataset.length + 1) none).1.flatten.length ∧
    (loadAllMedications b s).1.currentPage = 1 ∧
    (loadAllMedications b s).1.hasMore = false ∧
    (loadAllMedications b s).1.allMedicationsLoaded = true ∧
    (loadAllMedications b s).1.isLoadingAll = false ∧
    fetchAllMedicationsB b =
      .ok (drainPages b (b.dataset.length + 1) none).1.flatten := by
  have hdrain := drainPages_no_error b hpf (b.dataset.length + 1) none
  have hguard : (s.isLoadingAll || s.isLoading) = false := by rw [hA, hL]; rfl
  have hfetch : fetchAllMedicationsB b =
      .ok (drainPages b (b.dataset.length + 1) none).1.flatten := by
    unfold fetchAllMedicationsB
    dsimp only
    rw [hdrain]
  unfold loadAllMedications
  simp only [hguard, Bool.false_eq_true, if_false]
  simp [hdrain, hfetch]

/-- Witness for C9 on a three-document dataset: the committed slice is the
whole dataset. -/
theorem C9_bulk_commit_witness :
    (loadAllMedications (okBackend [medA, medB, medC] 3) initStore).1.medications =
      (drainPages (okBackend [medA, medB, medC] 3) 4 none).1.flatten ∧
    (loadAllMedications (okBackend [medA, medB, medC] 3) initStore).1.medications =
      [medA, medB, medC] ∧
    (loadAllMedications (okBackend [medA, medB, medC] 3) initStore).1.totalCount = 3 := by
  have h := C9_bulk_commit (okBackend [medA, medB, medC] 3) initStore rfl rfl rfl
  exact ⟨h.1, by decide, by decide⟩

/-! ### C6 — error atomicity of page loads -/

/-- With every page query failing, the bridging walk leaves the cache
unchanged and either surfaces that error or hands back a cursor. -/
theorem bridge_allfail (b : Backend) (P : Nat) (msg : String)
    (hpf : b.pageFail = fun _ => some msg) :
    ∀ (fuel i : Nat) (cache : Nat → Option Nat) (cur : Option Nat),
      (bridge b P fuel i cache cur).1 = cache ∧
      ((bridge b P fuel i cache cur).2.1 = .error msg ∨
        ∃ cur2, (bridge b P fuel i cache cur).2.1 = .ok cur2) := by
  intro fuel
  induction fuel with
  | zero => intro i cache cur; exact ⟨rfl, .inr ⟨cur, rfl⟩⟩
  | succ n ih =>
    intro i cache cur
    simp only [bridge]
    cases hci : cache i with
    | some d =>
      simp only [hci]
      exact ih (i + 1) cache (some d)
    | none =>
      simp [hci, fetchMedicationsPageB, hpf]

/-- C6: when the underlying page fetch fails, the Controller ends with the
failure message in its error slot (overwriting any previous error), the
loading flag cleared, and the loaded slice, current page, `hasMore` and
`totalCount` untouched; the same holds for a failing bulk load. -/
theorem C6_error_atomicity (b : Backend) (s sa : StoreState) (page c : Nat)
    (msg : String) (hL : s.isLoading = false) (hp : 1 ≤ page)
    (hc : b.countResult = .ok c) (hpf : b.pageFail = fun _ => some msg)
    (hA2 : sa.isLoadingAll = false) (hL2 : sa.isLoading = false) :
    ((loadPage b s page).1.error = some msg ∧
     (loadPage b s page).1.isLoading = false ∧
     (loadPage b s page).1.medications = s.medications ∧
     (loadPage b s page).1.currentPage = s.currentPage ∧
     (loadPage b s page).1.hasMore = s.hasMore ∧
     (loadPage b s page).1.totalCount = s.totalCount) ∧
    ((loadAllMedications b sa).1.error = some msg ∧
     (loadAllMedications b sa).1.isLoadingAll = false ∧
     (loadAllMedications b sa).1.medications = sa.medications ∧
     (loadAllMedications b sa).1.currentPage = sa.currentPage) := by
  constructor
  · have h1 : ¬ page < 1 := by omega
    unfold loadPage getMedicationCountB
    simp only [hL, hc, h1, if_false, Bool.false_eq_true]
    by_cases hpg : page > 1
    · simp only [hpg, if_true]
      cases hcache : s.lastDocuments (page - 1) with
      | some d =>
        simp only [hcache]
        simp [fetchMedicationsPageB, hpf]
      | none =>
        simp only [hcache]
        rcases bridge_allfail b s.pageSize msg hpf (page - 1) 1 s.lastDocuments
          none with ⟨hca, herr | ⟨cur2, hok⟩⟩
        · simp only [herr]
          simp
        · simp only [hok]
          simp [fetchMedicationsPageB, hpf]
    · simp only [hpg, if_false]
      simp [fetchMedicationsPageB, hpf]
  · have hdrain : drainPages b (b.dataset.length + 1) none = ([], some msg) := by
      simp [drainPages, fetchMedicationsPageB, hpf]
    have hguard : (sa.isLoadingAll || sa.isLoading) = false := by
      rw [hA2, hL2]; rfl
    unfold loadAllMedications
    simp only [hguard, Bool.false_eq_true, if_false]
    simp [hdrain]

/-- Witness for C6 on a failing-page backend: the prior slice survives. -/
theorem C6_error_atomicity_witness :
    (loadPage pageFailBackend sliceAB 1).1.error = some "network down" ∧
    (loadPage pageFailBackend sliceAB 1).1.medications = [medA, medB] ∧
    (loadAllMedications pageFailBackend sliceAB).1.error = some "network down" ∧
    (loadAllMedications pageFailBackend sliceAB).1.medications = [medA, medB] := by
  have h := C6_error_atomicity pageFailBackend sliceAB sliceAB 1 1
    "network down" rfl (by decide) rfl rfl rfl rfl
  exact ⟨h.1.1, by decide, h.2.1, by decide⟩

/-! ### C7 — sort toggle and numeric ordering (corrected)

Properties of the comparator: skew-symmetry, transitivity and totality of
the induced "comes no later" relation, and the uniqueness of a sorted
permutation up to ties. -/

theorem lexCmp_swap : ∀ (a b : List Char), lexCmp b a = -lexCmp a b := by
  intro a
  induction a with
  | nil => intro b; cases b <;> simp [lexCmp]
  | cons x xs ih =>
    intro b
    cases b with
    | nil => simp [lexCmp]
    | cons y ys =>
      simp only [lexCmp]
      split_ifs with h1 h2 <;>
        first
          | decide
          | (exact absurd h2 (asymm h1))
          | (exact absurd h1 (asymm h2))
          | exact ih ys

theorem lexCmp_nonpos_trans :
    ∀ (a b c : List Char), lexCmp a b ≤ 0 → lexCmp b c ≤ 0 → lexCmp a c ≤ 0 := by
  intro a
  induction a with
  | nil => intro b c _ _; cases c <;> simp [lexCmp]
  | cons x xs ih =>
    intro b c hab hbc
    cases b with
    | nil => simp [lexCmp] at hab
    | cons y ys =>
      cases c with
      | nil => simp [lexCmp] at hbc
      | cons z zs =>
        simp only [lexCmp] at hab hbc ⊢
        split_ifs at hab with hxy hyx
        · -- x < y
          split_ifs at hbc with hyz hzy
          · -- y < z, hence x < z
            rw [if_pos (lt_trans hxy hyz)]; decide
          · exact absurd hbc (by decide)
          · -- y = z
            have hyz : y = z := le_antisymm (not_lt.mp hzy) (not_lt.mp hyz)
            subst hyz
            rw [if_pos hxy]; decide
        · exact absurd hab (by decide)
        · -- x = y
          have hxy2 : x = y := le_antisymm (not_lt.mp hyx) (not_lt.mp hxy)
          subst hxy2
          split_ifs at hbc with hyz hzy
          · rw [if_pos hyz]; decide
          · exact absurd hbc (by decide)
          · have hyz2 : x = z := le_antisymm (not_lt.mp hzy) (not_lt.mp hyz)
            subst hyz2
            simp only [lt_irrefl, if_false]
            exact ih ys zs hab hbc

theorem baseCompare_swap (f : SortField) (a b : MedicationDocument) :
    baseCompare f b a = -baseCompare f a b := by
  cases f <;> simp only [baseCompare]
  · rw [lexCmp_swap]; push_cast; ring
  · rw [lexCmp_swap]; push_cast; ring
  · ring
  · push_cast; ring

theorem baseCompare_nonpos_trans (f : SortField) (a b c : MedicationDocument)
    (h1 : baseCompare f a b ≤ 0) (h2 : baseCompare f b c ≤ 0) :
    baseCompare f a c ≤ 0 := by
  cases f <;> simp only [baseCompare] at h1 h2 ⊢
  · have := lexCmp_nonpos_trans _ _ _
      (by exact_mod_cast h1) (by exact_mod_cast h2)
    exact_mod_cast this
  · have := lexCmp_nonpos_trans _ _ _
      (by exact_mod_cast h1) (by exact_mod_cast h2)
    exact_mod_cast this
  · rw [sub_nonpos] at h1 h2 ⊢
    exact le_trans h1 h2
  · have h1i : (a.ndc_links.ndc11_all.length : Int) -
        (b.ndc_links.ndc11_all.length : Int) ≤ 0 := by exact_mod_cast h1
    have h2i : (b.ndc_links.ndc11_all.length : Int) -
        (c.ndc_links.ndc11_all.length : Int) ≤ 0 := by exact_mod_cast h2
    have h3i : (a.ndc_links.ndc11_all.length : Int) -
        (c.ndc_links.ndc11_all.length : Int) ≤ 0 := by omega
    exact_mod_cast h3i

theorem medLe_asc (f : SortField) (a b : MedicationDocument) :
    medLe f .asc a b ↔ baseCompare f a b ≤ 0 := by
  simp [medLe, medComparator, dirVal]

theorem medLe_desc (f : SortField) (a b : MedicationDocument) :
    medLe f .desc a b ↔ medLe f .asc b a := by
  rw [medLe_asc, baseCompare_swap]
  simp only [medLe, medComparator, dirVal]
  constructor <;> intro h <;> nlinarith

theorem medLe_trans (f : SortField) (d : SortDirection) :
    ∀ a b c, medLe f d a b → medLe f d b c → medLe f d a c := by
  intro a b c hab hbc
  cases d
  · rw [medLe_asc] at *
    exact baseCompare_nonpos_trans f a b c hab hbc
  · rw [medLe_desc, medLe_asc] at *
    exact baseCompare_nonpos_trans f c b a hbc hab

theorem medLe_total (f : SortField) (d : SortDirection) :
    ∀ a b, medLe f d a b ∨ medLe f d b a := by
  intro a b
  have hsw := baseCompare_swap f a b
  cases d
  · rw [medLe_asc, medLe_asc]
    rcases le_or_lt (baseCompare f a b) 0 with h | h
    · exact .inl h
    · exact .inr (by rw [hsw]; linarith)
  · rw [medLe_desc, medLe_desc, medLe_asc, medLe_asc]
    rcases le_or_lt (baseCompare f a b) 0 with h | h
    · exact .inr h
    · exact .inl (by rw [hsw]; linarith)

/-- Two pairwise-ordered permutations of each other agree as soon as the
ordering admits no distinct mutually related elements among them. -/
theorem perm_pairwise_eq {α : Type} {R : α → α → Prop} :
    ∀ {l₁ l₂ : List α}, l₁.Perm l₂ → l₁.Pairwise R → l₂.Pairwise R →
      (∀ a ∈ l₁, ∀ b ∈ l₁, R a b → R b a → a = b) → l₁ = l₂ := by
  intro l₁
  induction l₁ with
  | nil =>
    intro l₂ hp _ _ _
    exact (hp.symm.eq_nil).symm
  | cons a t ih =>
    intro l₂ hp h1 h2 hanti
    have ha2 : a ∈ l₂ := hp.mem_iff.mp (by simp)
    cases l₂ with
    | nil => simp at ha2
    | cons b t₂ =>
      have hab : a = b := by
        rcases List.mem_cons.mp ha2 with h | h
        · exact h
        · have hRba : R b a := (List.pairwise_cons.mp h2).1 a h
          have hb1 : b ∈ a :: t := hp.mem_iff.mpr (by simp)
          rcases List.mem_cons.mp hb1 with h5 | h5
          · exact h5.symm
          · have hRab : R a b := (List.pairwise_cons.mp h1).1 b h5
            exact hanti a (by simp) b hb1 hRab hRba
      subst hab
      have hpt : t.Perm t₂ := hp.cons_inv
      have hrec := ih hpt (List.pairwise_cons.mp h1).2 (List.pairwise_cons.mp h2).2
        (fun x hx y hy hxy hyx =>
          hanti x (List.mem_cons_of_mem a hx) y (List.mem_cons_of_mem a hy) hxy hyx)
      rw [hrec]

/-- The sort fields do not influence the filtered view. -/
theorem filteredMedications_setSortField (s : StoreState) (f : SortField) :
    filteredMedications (setSortField s f) = filteredMedications s := by
  unfold setSortField
  split <;> rfl

/-- With pairwise distinct sort keys, the descending stable sort is the
reverse of the ascending one. -/
theorem insertionSort_desc_reverse (f : SortField)
    (l : List MedicationDocument)
    (hdist : ∀ a ∈ l, ∀ b ∈ l, baseCompare f a b = 0 → a = b) :
    l.insertionSort (medLe f .desc) = (l.insertionSort (medLe f .asc)).reverse := by
  haveI : IsTrans MedicationDocument (medLe f .desc) := ⟨medLe_trans f .desc⟩
  haveI : IsTotal MedicationDocument (medLe f .desc) := ⟨medLe_total f .desc⟩
  haveI : IsTrans MedicationDocument (medLe f .asc) := ⟨medLe_trans f .asc⟩
  haveI : IsTotal MedicationDocument (medLe f .asc) := ⟨medLe_total f .asc⟩
  refine @perm_pairwise_eq _ (medLe f .desc) _ _ ?_ ?_ ?_ ?_
  · have p1 : (l.insertionSort (medLe f .desc)).Perm l :=
      List.perm_insertionSort _ l
    have p2 : ((l.insertionSort (medLe f .asc)).reverse).Perm l :=
      (List.reverse_perm _).trans (List.perm_insertionSort _ l)
    exact p1.trans p2.symm
  · exact List.sorted_insertionSort _ l
  · rw [List.pairwise_reverse]
    exact (List.sorted_insertionSort (medLe f .asc) l).imp
      (fun {x y} h => (medLe_desc f y x).mpr h)
  · intro a ha b hb hab hba
    have ha2 : a ∈ l := (List.perm_insertionSort _ l).mem_iff.mp ha
    have hb2 : b ∈ l := (List.perm_insertionSort _ l).mem_iff.mp hb
    have h1 : baseCompare f a b ≤ 0 := (medLe_asc f a b).mp ((medLe_desc f b a).mp hba)
    have h2 : baseCompare f b a ≤ 0 := (medLe_asc f b a).mp ((medLe_desc f a b).mp hab)
    have h0 : baseCompare f a b = 0 := by
      have hsw := baseCompare_swap f b a
      have hge : 0 ≤ baseCompare f a b := by linarith
      exact le_antisymm h1 hge
    exact hdist a ha2 b hb2 h0

/-- Counterexample to C7 as stated: on two distinct records whose cleaned
names tie, selecting the active sort field again does toggle the direction,
but `sortedMedications` is NOT reversed — the stable sort keeps tied
records in their original relative order. -/
theorem C7_counterexample :
    (setSortField tieState tieState.sortField).sortDirection = SortDirection.desc ∧
    sortedMedications (setSortField tieState tieState.sortField) ≠
      (sortedMedications tieState).reverse := by
  constructor
  · rfl
  · have hset : setSortField tieState tieState.sortField =
        { tieState with sortDirection := .desc } := by
      simp [setSortField, tieState]
    have h1 : sortedMedications tieState = [medT1, medT2] := by
      norm_num [sortedMedications, filteredMedications, List.insertionSort,
        List.orderedInsert, medLe, medComparator, baseCompare, dirVal, tieState,
        initStore, medT1, medT2, mkMed, cleanMedicationName, trimChars,
        stripBraceCode, headIsLbrace, lexCmp]
    have h2 : sortedMedications { tieState with sortDirection := .desc } =
        [medT1, medT2] := by
      norm_num [sortedMedications, filteredMedications, List.insertionSort,
        List.orderedInsert, medLe, medComparator, baseCompare, dirVal, tieState,
        initStore, medT1, medT2, mkMed, cleanMedicationName, trimChars,
        stripBraceCode, headIsLbrace, lexCmp]
    rw [hset, h2, h1]
    decide

/-- C7 (amended): selecting the active sort field again toggles the
direction (a new field resets to ascending), and — provided the active sort
keys are pairwise distinct on the filtered records — doing so reverses
`sortedMedications`; with ties the key order is still reversed but tied
records keep their relative order (stability), so the record list need not
be the exact reverse.  The `median_price` and `ndc_count` comparators order
by the numeric values. -/
theorem C7_sort_toggle_numeric (s : StoreState) (f : SortField)
    (hdist : ∀ a ∈ filteredMedications s, ∀ b ∈ filteredMedications s,
      baseCompare s.sortField a b = 0 → a = b) :
    (setSortField s s.sortField).sortField = s.sortField ∧
    (setSortField s s.sortField).sortDirection =
      (if s.sortDirection = .asc then .desc else .asc) ∧
    (s.sortField ≠ f →
      (setSortField s f).sortField = f ∧
      (setSortField s f).sortDirection = .asc) ∧
    sortedMedications (setSortField s s.sortField) = (sortedMedications s).reverse ∧
    (∀ a b : MedicationDocument, medLe .median_price .asc a b ↔
      a.pricing_stats.median_unit_price ≤ b.pricing_stats.median_unit_price) ∧
    (∀ a b : MedicationDocument, medLe .ndc_count .asc a b ↔
      a.ndc_links.ndc11_all.length ≤ b.ndc_links.ndc11_all.length) := by
  refine ⟨?_, ?_, ?_, ?_, ?_, ?_⟩
  · simp [setSortField]
  · simp [setSortField]
  · intro hne
    constructor <;> simp [setSortField, hne]
  · have hfe := filteredMedications_setSortField s s.sortField
    have hff : (setSortField s s.sortField).sortField = s.sortField := by
      simp [setSortField]
    unfold sortedMedications
    rw [hfe, hff]
    cases hd : s.sortDirection with
    | asc =>
      have hdd : (setSortField s s.sortField).sortDirection = .desc := by
        simp [setSortField, hd]
      rw [hdd]
      exact insertionSort_desc_reverse s.sortField _ hdist
    | desc =>
      have hdd : (setSortField s s.sortField).sortDirection = .asc := by
        simp [setSortField, hd]
      rw [hdd, insertionSort_desc_reverse s.sortField _ hdist,
        List.reverse_reverse]
  · intro a b
    rw [medLe_asc]
    simp only [baseCompare]
    exact sub_nonpos
  · intro a b
    rw [medLe_asc]
    simp only [baseCompare]
    constructor <;> intro h
    · have hi : (a.ndc_links.ndc11_all.length : Int) -
          (b.ndc_links.ndc11_all.length : Int) ≤ 0 := by exact_mod_cast h
      omega
    · have hi : (a.ndc_links.ndc11_all.length : Int) -
          (b.ndc_links.ndc11_all.length : Int) ≤ 0 := by omega
      exact_mod_cast hi

/-- Witness for C7 (amended): on three records with distinct median prices
0.5, 0.8 and 10, toggling the active price sort reverses the view, and the
ascending order is numeric — 0.8 precedes 10. -/
theorem C7_sort_toggle_numeric_witness :
    sortedMedications (setSortField priceState priceState.sortField) =
      (sortedMedications priceState).reverse ∧
    (medLe .median_price .asc medA medB ↔
      medA.pricing_stats.median_unit_price ≤ medB.pricing_stats.median_unit_price) ∧
    sortedMedications priceState = [medD, medA, medB] := by
  have hfil : filteredMedications priceState = [medB, medA, medD] := by rfl
  have hdist : ∀ a ∈ filteredMedications priceState,
      ∀ b ∈ filteredMedications priceState,
      baseCompare priceState.sortField a b = 0 → a = b := by
    intro a ha b hb h0
    rw [hfil] at ha hb
    fin_cases ha <;> fin_cases hb <;>
      first
        | rfl
        | (exfalso; revert h0;
           norm_num [baseCompare, priceState, initStore, medB, medA, medD,
             mkMed, Rat.mkRat_eq_div])
  have h := C7_sort_toggle_numeric priceState .name hdist
  refine ⟨h.2.2.2.1, h.2.2.2.2.1 medA medB, ?_⟩
  norm_num [sortedMedications, filteredMedications, List.insertionSort,
    List.orderedInsert, medLe, medComparator, baseCompare, dirVal, priceState,
    initStore, medA, medB, medD, mkMed, Rat.mkRat_eq_div]

/-! ### C1 — page-jump reconstruction / cursor-cache correctness -/


theorem loadPage_ok_commit_p1 (b : Backend) (c : Nat) (s : StoreState)
    (r : PaginatedResult) (e : Nat)
    (hL : s.isLoading = false) (hcnt : b.countResult = .ok c)
    (hfetch : fetchMedicationsPageB b s.pageSize none = .ok r)
    (hlast : r.lastDoc = some e) :
    loadPage b s 1 =
      ({ s with
          medications := r.medications
          error := none
          totalCount := c
          hasMore := r.hasMore
          currentPage := 1
          lastDocuments := cacheSet s.lastDocuments 1 e
          isLoading := false }, 1) := by
  unfold loadPage getMedicationCountB
  simp only [hL, Bool.false_eq_true, if_false, hcnt]
  norm_num
  simp only [hfetch, hlast]

theorem loadPage_ok_commit_hit (b : Backend) (c : Nat) (s : StoreState)
    (page d : Nat) (r : PaginatedResult) (e : Nat)
    (hL : s.isLoading = false) (hp : 1 < page) (hcnt : b.countResult = .ok c)
    (hcache : s.lastDocuments (page - 1) = some d)
    (hfetch : fetchMedicationsPageB b s.pageSize (some d) = .ok r)
    (hlast : r.lastDoc = some e) :
    loadPage b s page =
      ({ s with
          medications := r.medications
          error := none
          totalCount := c
          hasMore := r.hasMore
          currentPage := page
          lastDocuments := cacheSet s.lastDocuments page e
          isLoading := false }, 1) := by
  have hg : ¬ page < 1 := by omega
  unfold loadPage getMedicationCountB
  simp only [hL, Bool.false_eq_true, if_false, hcnt, hg, hp, if_true, hcache,
    hfetch, hlast]

theorem loadPage_ok_commit_miss (b : Backend) (c : Nat) (s : StoreState)
    (page : Nat) (cache2 : Nat → Option Nat) (cur : Option Nat) (n : Nat)
    (r : PaginatedResult) (e : Nat)
    (hL : s.isLoading = false) (hp : 1 < page) (hcnt : b.countResult = .ok c)
    (hcache : s.lastDocuments (page - 1) = none)
    (hbridge : bridge b s.pageSize (page - 1) 1 s.lastDocuments none =
      (cache2, .ok cur, n))
    (hfetch : fetchMedicationsPageB b s.pageSize cur = .ok r)
    (hlast : r.lastDoc = some e) :
    loadPage b s page =
      ({ s with
          medications := r.medications
          error := none
          totalCount := c
          hasMore := r.hasMore
          currentPage := page
          lastDocuments := cacheSet cache2 page e
          isLoading := false }, n + 1) := by
  have hg : ¬ page < 1 := by omega
  unfold loadPage getMedicationCountB
  simp only [hL, Bool.false_eq_true, if_false, hcnt, hg, hp, if_true, hcache,
    hbridge, hfetch, hlast]



theorem fetchPageCore_none_lastDoc (ds : List MedicationDocument) (c P : Nat)
    (hP : 0 < P) (hfull : P ≤ ds.length) :
    (fetchPageCore (okBackend ds c) P none).lastDoc = some (P - 1) := by
  unfold fetchPageCore okBackend
  dsimp only
  have hml : ((ds.drop 0).take P).length = P := by
    rw [List.length_take, List.length_drop]
    omega
  rw [hml, if_pos hP]
  congr 1
  omega

theorem fetchPageCore_some_lastDoc (ds : List MedicationDocument) (c P j : Nat)
    (hP : 0 < P) (hfull : (j + 1) + P ≤ ds.length) :
    (fetchPageCore (okBackend ds c) P (some j)).lastDoc = some (j + P) := by
  unfold fetchPageCore okBackend
  dsimp only
  have hml : ((ds.drop (j + 1)).take P).length = P := by
    rw [List.length_take, List.length_drop]
    omega
  rw [hml, if_pos hP]
  congr 1
  omega

theorem cacheSet_cacheAfter (P K : Nat) (cache : Nat → Option Nat)
    (hC : ∀ i, cache i = cacheAfter P K i) (_hP : 0 < P) :
    ∀ i, cacheSet cache (K + 1) ((K + 1) * P - 1) i = cacheAfter P (K + 1) i := by
  intro i
  unfold cacheSet
  by_cases hi : i = K + 1
  · subst hi
    simp [cacheAfter]
  · rw [if_neg hi, hC i]
    unfold cacheAfter
    split_ifs with h1 h2 <;> first | rfl | omega

theorem loadPage_step (ds : List MedicationDocument) (c P K : Nat)
    (s : StoreState) (hP : 0 < P) (hlen : (K + 1) * P ≤ ds.length)
    (hL : s.isLoading = false) (hPS : s.pageSize = P)
    (hC : ∀ i, s.lastDocuments i = cacheAfter P K i) :
    (loadPage (okBackend ds c) s (K + 1)).2 = 1 ∧
    (loadPage (okBackend ds c) s (K + 1)).1.isLoading = false ∧
    (loadPage (okBackend ds c) s (K + 1)).1.pageSize = P ∧
    (∀ i, (loadPage (okBackend ds c) s (K + 1)).1.lastDocuments i =
      cacheAfter P (K + 1) i) := by
  have hKP : (K + 1) * P = K * P + P := by ring
  rcases Nat.eq_zero_or_pos K with hK | hK
  · subst hK
    have hfull : P ≤ ds.length := by omega
    have hlast := fetchPageCore_none_lastDoc ds c P hP hfull
    have heval := loadPage_ok_commit_p1 (okBackend ds c) c s
      (fetchPageCore (okBackend ds c) P none) (P - 1) hL rfl
      (by rw [hPS]; rfl) hlast
    rw [heval]
    refine ⟨rfl, rfl, hPS, ?_⟩
    have := cacheSet_cacheAfter P 0 s.lastDocuments hC hP
    simpa using this
  · -- K ≥ 1: cursor cache hit on page K
    have hcache : s.lastDocuments (K + 1 - 1) = some (K * P - 1) := by
      rw [hC]
      simp only [Nat.add_sub_cancel]
      unfold cacheAfter
      rw [if_pos ⟨hK, le_refl K⟩]
    have hge1 : 1 ≤ K * P := Nat.one_le_iff_ne_zero.mpr (by positivity)
    have hfull : (K * P - 1 + 1) + P ≤ ds.length := by omega
    have hlast := fetchPageCore_some_lastDoc ds c P (K * P - 1) hP hfull
    have hlast2 : (fetchPageCore (okBackend ds c) P (some (K * P - 1))).lastDoc =
        some ((K + 1) * P - 1) := by
      rw [hlast]
      congr 1
      omega
    have heval := loadPage_ok_commit_hit (okBackend ds c) c s (K + 1)
      (K * P - 1) (fetchPageCore (okBackend ds c) P (some (K * P - 1)))
      ((K + 1) * P - 1) hL (by omega) rfl hcache (by rw [hPS]; rfl) hlast2
    rw [heval]
    exact ⟨rfl, rfl, hPS, cacheSet_cacheAfter P K s.lastDocuments hC hP⟩



theorem loadSeq_good (ds : List MedicationDocument) (c P : Nat) :
    ∀ (K : Nat) (s0 : StoreState), 0 < P → K * P ≤ ds.length →
      s0.isLoading = false → s0.pageSize = P →
      (∀ i, s0.lastDocuments i = none) →
      (loadSeq (okBackend ds c) s0 K).isLoading = false ∧
      (loadSeq (okBackend ds c) s0 K).pageSize = P ∧
      (∀ i, (loadSeq (okBackend ds c) s0 K).lastDocuments i = cacheAfter P K i) := by
  intro K
  induction K with
  | zero =>
    intro s0 hP _ hL hPS hC
    refine ⟨hL, hPS, fun i => ?_⟩
    show s0.lastDocuments i = cacheAfter P 0 i
    rw [hC i]
    unfold cacheAfter
    rw [if_neg (by omega)]
  | succ K ih =>
    intro s0 hP hlen hL hPS hC
    have hlenK : K * P ≤ ds.length :=
      le_trans (Nat.mul_le_mul_right P (by omega)) hlen
    obtain ⟨h1, h2, h3⟩ := ih s0 hP hlenK hL hPS hC
    have hstep := loadPage_step ds c P K (loadSeq (okBackend ds c) s0 K)
      hP hlen h1 h2 h3
    exact ⟨hstep.2.1, hstep.2.2.1, hstep.2.2.2⟩

theorem bridge_hits (b : Backend) (P : Nat) (g : Nat → Nat) :
    ∀ (m r i : Nat) (cache : Nat → Option Nat) (cur : Option Nat),
      0 < m → (∀ k, i ≤ k → k < i + m → cache k = some (g k)) →
      bridge b P (m + r) i cache cur =
        bridge b P r (i + m) cache (some (g (i + m - 1))) := by
  intro m
  induction m with
  | zero => intro r i cache cur h0 _; exact absurd h0 (lt_irrefl 0)
  | succ n ih =>
    intro r i cache cur _ hcache
    have hs : n + 1 + r = (n + r) + 1 := by omega
    rw [hs]
    have hci : cache i = some (g i) := hcache i (le_refl i) (by omega)
    simp only [bridge, hci]
    rcases Nat.eq_zero_or_pos n with h0 | hpos
    · subst h0
      have e0 : i + 1 - 1 = i := by omega
      simp only [Nat.zero_add, e0]
    · rw [ih r (i + 1) cache (some (g i)) hpos
        (fun k hk1 hk2 => hcache k (by omega) (by omega))]
      have e1 : i + 1 + n = i + (n + 1) := by omega
      rw [e1]

theorem bridge_eval_jump (ds : List MedicationDocument) (c P K : Nat)
    (cache : Nat → Option Nat) (hP : 0 < P) (hlen : (K + 2) * P ≤ ds.length)
    (hC : ∀ i, cache i = cacheAfter P K i) :
    bridge (okBackend ds c) P (K + 1) 1 cache none =
      (cacheSet cache (K + 1) ((K + 1) * P - 1),
        Except.ok (some ((K + 1) * P - 1)), 1) := by
  rcases Nat.eq_zero_or_pos K with hK | hK
  · subst hK
    have hc1 : cache 1 = none := by
      rw [hC 1]; unfold cacheAfter; rw [if_neg (by omega)]
    have hlast := fetchPageCore_none_lastDoc ds c P hP (by omega)
    simp only [bridge, hc1,
      show fetchMedicationsPageB (okBackend ds c) P none =
        Except.ok (fetchPageCore (okBackend ds c) P none) from rfl, hlast]
    norm_num
  · have hhits := bridge_hits (okBackend ds c) P (fun k => k * P - 1) K 1 1
      cache none hK
      (fun k hk1 hk2 => by
        rw [hC k]; unfold cacheAfter; rw [if_pos ⟨hk1, by omega⟩])
    rw [hhits]
    have e2 : 1 + K - 1 = K := by omega
    have e3 : 1 + K = K + 1 := by omega
    have e4 : K + 1 - 1 = K := by omega
    simp only [e2, e3, e4]
    have hcK1 : cache (K + 1) = none := by
      rw [hC]; unfold cacheAfter; rw [if_neg (by omega)]
    have hge1 : 0 < K * P := Nat.mul_pos hK hP
    have hlast := fetchPageCore_some_lastDoc ds c P (K * P - 1) hP (by
      have : (K + 2) * P = K * P + P + P := by ring
      omega)
    have hlast2 : (fetchPageCore (okBackend ds c) P (some (K * P - 1))).lastDoc =
        some ((K + 1) * P - 1) := by
      rw [hlast]
      congr 1
      have : (K + 1) * P = K * P + P := by ring
      omega
    simp only [bridge, hcK1,
      show fetchMedicationsPageB (okBackend ds c) P (some (K * P - 1)) =
        Except.ok (fetchPageCore (okBackend ds c) P (some (K * P - 1))) from rfl,
      hlast2]



theorem loadPage_one_fetch (ds : List MedicationDocument) (c : Nat)
    (s : StoreState) (N : Nat) (hL : s.isLoading = false)
    (hcase : N = 1 ∨ (2 ≤ N ∧ ∃ d, s.lastDocuments (N - 1) = some d)) :
    (loadPage (okBackend ds c) s N).2 = 1 := by
  unfold loadPage getMedicationCountB
  rcases hcase with rfl | ⟨h2, d, hd⟩
  · simp only [hL, Bool.false_eq_true, if_false,
      show ¬ (1 : Nat) < 1 from by omega, show ¬ (1 : Nat) > 1 from by omega]
    rfl
  · simp only [hL, Bool.false_eq_true, if_false,
      show ¬ N < 1 from by omega, show N > 1 from by omega, if_true, hd]
    rfl

theorem loadPage_jump (ds : List MedicationDocument) (c P K : Nat)
    (s : StoreState) (hP : 0 < P) (hlen : (K + 2) * P ≤ ds.length)
    (hL : s.isLoading = false) (hPS : s.pageSize = P)
    (hC : ∀ i, s.lastDocuments i = cacheAfter P K i) :
    (loadPage (okBackend ds c) s (K + 2)).2 = 2 ∧
    (loadPage (okBackend ds c) s (K + 2)).1.lastDocuments (K + 1) =
      some ((K + 1) * P - 1) ∧
    (loadPage (okBackend ds c) s (K + 2)).1.lastDocuments (K + 2) =
      some ((K + 2) * P - 1) := by
  have hK1P : (K + 1) * P = K * P + P := by ring
  have hK2P : (K + 2) * P = K * P + P + P := by ring
  have hge1 : 0 < (K + 1) * P := by positivity
  have hcache : s.lastDocuments (K + 2 - 1) = none := by
    show s.lastDocuments (K + 1) = none
    rw [hC]
    unfold cacheAfter
    rw [if_neg (by omega)]
  have hbridge0 := bridge_eval_jump ds c P K s.lastDocuments hP hlen hC
  have hbridge : bridge (okBackend ds c) s.pageSize (K + 2 - 1) 1
      s.lastDocuments none =
      (cacheSet s.lastDocuments (K + 1) ((K + 1) * P - 1),
        Except.ok (some ((K + 1) * P - 1)), 1) := by
    rw [hPS]
    exact hbridge0
  have hlast := fetchPageCore_some_lastDoc ds c P ((K + 1) * P - 1) hP (by omega)
  have hlast2 : (fetchPageCore (okBackend ds c) P
      (some ((K + 1) * P - 1))).lastDoc = some ((K + 2) * P - 1) := by
    rw [hlast]
    congr 1
    omega
  have heval := loadPage_ok_commit_miss (okBackend ds c) c s (K + 2)
    (cacheSet s.lastDocuments (K + 1) ((K + 1) * P - 1))
    (some ((K + 1) * P - 1)) 1
    (fetchPageCore (okBackend ds c) P (some ((K + 1) * P - 1)))
    ((K + 2) * P - 1) hL (by omega) rfl hcache hbridge
    (by rw [hPS]; rfl) hlast2
  rw [heval]
  refine ⟨rfl, ?_, ?_⟩
  · show cacheSet (cacheSet s.lastDocuments (K + 1) ((K + 1) * P - 1)) (K + 2)
      ((K + 2) * P - 1) (K + 1) = some ((K + 1) * P - 1)
    unfold cacheSet
    rw [if_neg (by omega), if_pos rfl]
  · show cacheSet (cacheSet s.lastDocuments (K + 1) ((K + 1) * P - 1)) (K + 2)
      ((K + 2) * P - 1) (K + 2) = some ((K + 2) * P - 1)
    unfold cacheSet
    rw [if_pos rfl]

/-- C1: after `loadPage` has been called for pages `1..K` in order over a
sufficiently long dataset, the cursor cache maps every loaded page `i` to
the position of its last document; a subsequent `loadPage N` with `N ≤ K`
finds the cursor for page `N − 1` in the cache and issues exactly one page
fetch (the fetch of page `N` itself, no bridging fetches); and
`loadPage (K + 2)` issues exactly two page fetches — the two missing pages
`K + 1` and `K + 2` — caching the cursor of the intermediate page `K + 1`
as well as that of page `K + 2`. -/
theorem C1_cursor_cache_correctness (ds : List MedicationDocument) (c P K N : Nat)
    (s0 : StoreState) (hP : 0 < P) (h0L : s0.isLoading = false)
    (h0P : s0.pageSize = P) (h0C : ∀ i, s0.lastDocuments i = none)
    (hlen : (K + 2) * P ≤ ds.length) (hN1 : 1 ≤ N) (hNK : N ≤ K) :
    ((loadSeq (okBackend ds c) s0 K).lastDocuments (N - 1) =
      if 2 ≤ N then some ((N - 1) * P - 1) else none) ∧
    (loadPage (okBackend ds c) (loadSeq (okBackend ds c) s0 K) N).2 = 1 ∧
    (loadPage (okBackend ds c) (loadSeq (okBackend ds c) s0 K) (K + 2)).2 = 2 ∧
    ((loadPage (okBackend ds c) (loadSeq (okBackend ds c) s0 K)
        (K + 2)).1.lastDocuments (K + 1) = some ((K + 1) * P - 1)) ∧
    ((loadPage (okBackend ds c) (loadSeq (okBackend ds c) s0 K)
        (K + 2)).1.lastDocuments (K + 2) = some ((K + 2) * P - 1)) := by
  have hlenK : K * P ≤ ds.length :=
    le_trans (Nat.mul_le_mul_right P (by omega)) hlen
  obtain ⟨hL, hPS, hC⟩ := loadSeq_good ds c P K s0 hP hlenK h0L h0P h0C
  have hjump := loadPage_jump ds c P K (loadSeq (okBackend ds c) s0 K)
    hP hlen hL hPS hC
  refine ⟨?_, ?_, hjump.1, hjump.2.1, hjump.2.2⟩
  · rw [hC (N - 1)]
    unfold cacheAfter
    by_cases h2 : 2 ≤ N
    · rw [if_pos (by omega), if_pos h2]
    · rw [if_neg (by omega), if_neg h2]
  · apply loadPage_one_fetch ds c _ N hL
    by_cases h2 : 2 ≤ N
    · refine .inr ⟨h2, (N - 1) * P - 1, ?_⟩
      rw [hC (N - 1)]
      unfold cacheAfter
      rw [if_pos (by omega)]
    · exact .inl (by omega)

/-- Witness for C1 with page size 1 on a four-document dataset, after
loading pages 1 and 2: revisiting page 2 costs one fetch, and jumping to
page 4 costs exactly two fetches and caches the cursor of page 3. -/
theorem C1_cursor_cache_correctness_witness :
    (loadPage (okBackend [medA, medB, medC, medD] 4)
      (loadSeq (okBackend [medA, medB, medC, medD] 4)
        { initStore with pageSize := 1 } 2) 2).2 = 1 ∧
    (loadPage (okBackend [medA, medB, medC, medD] 4)
      (loadSeq (okBackend [medA, medB, medC, medD] 4)
        { initStore with pageSize := 1 } 2) 4).2 = 2 ∧
    (loadPage (okBackend [medA, medB, medC, medD] 4)
      (loadSeq (okBackend [medA, medB, medC, medD] 4)
        { initStore with pageSize := 1 } 2) 4).1.lastDocuments 3 = some 2 ∧
    (loadSeq (okBackend [medA, medB, medC, medD] 4)
      { initStore with pageSize := 1 } 2).lastDocuments 1 = some 0 := by
  have h := C1_cursor_cache_correctness [medA, medB, medC, medD] 4 1 2 2
    { initStore with pageSize := 1 } (by decide) rfl rfl (fun _ => rfl)
    (by decide) (by decide) (by decide)
  exact ⟨h.2.1, h.2.2.1, h.2.2.2.1, by decide⟩


end MedViewer
